import Mathlib

/-!
Shallow embedding of the LogForge in-memory log store (src/src/api.js).

The server keeps an array `receivedLogs` (newest first, capped at 1000 by
`unshift` + `splice(1000)`) and a `stats` object with `totalReceived`,
`byLevel` (a plain JavaScript object used as a counter map) and
`lastReceived`.  The HTTP handlers (POST /logs, GET /logs, GET /search,
GET /stats, DELETE /logs) are embedded as pure functions from the request
data and the store state to a response and a successor state.

JavaScript values that can appear in a parsed JSON body are modelled by
`JSVal`; objects are association lists of own properties in insertion
order.  Property reads on plain objects fall back to `Object.prototype`
(modelled by `protoGet`), which matters for the `byLevel` counter update
`stats.byLevel[log.level] = (stats.byLevel[log.level] || 0) + 1`.
-/

/-- Primitive JavaScript values as they occur in the embedded handlers.
`objv s` stands for a non-primitive value (an object or function) whose
ToPrimitive conversion used by the `+` operator is the string `s`;
only `Object.prototype` members are represented this way here. -/
inductive JSVal where
  | str : String → JSVal
  | num : Int → JSVal
  | boolv : Bool → JSVal
  | nullv : JSVal
  | objv : String → JSVal
  deriving DecidableEq, Repr

/-- A plain JavaScript object: its own enumerable properties in insertion
order (as produced by an object literal or by JSON.parse). -/
abbrev JSObj := List (String × JSVal)

/-- Own-property lookup: first pair with the given key. -/
def getOwn : JSObj → String → Option JSVal
  | [], _ => none
  | (k1, v) :: rest, k => if k1 = k then some v else getOwn rest k

/-- Own-property write with define semantics (object literal / spread):
an existing key is updated in place, a new key is appended at the end. -/
def setOwn : JSObj → String → JSVal → JSObj
  | [], k, v => [(k, v)]
  | (k1, v1) :: rest, k, v =>
      if k1 = k then (k, v) :: rest else (k1, v1) :: setOwn rest k v

/-- Data properties inherited from `Object.prototype` by every plain
object.  A read of one of these keys on an object without an own property
of that name yields the inherited function (for `__proto__`, the accessor
yields `Object.prototype` itself, an object).  All are truthy. -/
def protoGet : String → Option JSVal
  | "toString" => some (.objv "function toString() \x7b [native code] \x7d")
  | "toLocaleString" => some (.objv "function toLocaleString() \x7b [native code] \x7d")
  | "valueOf" => some (.objv "function valueOf() \x7b [native code] \x7d")
  | "hasOwnProperty" => some (.objv "function hasOwnProperty() \x7b [native code] \x7d")
  | "isPrototypeOf" => some (.objv "function isPrototypeOf() \x7b [native code] \x7d")
  | "propertyIsEnumerable" => some (.objv "function propertyIsEnumerable() \x7b [native code] \x7d")
  | "constructor" => some (.objv "function Object() \x7b [native code] \x7d")
  | "__defineGetter__" => some (.objv "function __defineGetter__() \x7b [native code] \x7d")
  | "__defineSetter__" => some (.objv "function __lookupGetter__() \x7b [native code] \x7d")
  | "__lookupGetter__" => some (.objv "function __lookupGetter__() \x7b [native code] \x7d")
  | "__lookupSetter__" => some (.objv "function __lookupSetter__() \x7b [native code] \x7d")
  | "__proto__" => some (.objv "[object Object]")
  | _ => none

/-- Property read `o[k]` on a plain object: own property first, then the
`Object.prototype` chain; `none` is JavaScript `undefined`. -/
def jsGetProp (o : JSObj) (k : String) : Option JSVal :=
  match getOwn o k with
  | some v => some v
  | none => protoGet k

/-- Property assignment `o[k] = v` on a plain object.  Assigning to
`__proto__` invokes the inherited accessor, which ignores a primitive
value, so it is a no-op for the number/string values written here;
every other key becomes (or updates) an own property. -/
def jsSetProp (o : JSObj) (k : String) (v : JSVal) : JSObj :=
  if k = "__proto__" then o else setOwn o k v

/-- JavaScript truthiness of a defined value. -/
def truthyVal : JSVal → Bool
  | .str s => s ≠ ""
  | .num n => n ≠ 0
  | .boolv b => b
  | .nullv => false
  | .objv _ => true

/-- Truthiness of a possibly-undefined value (`undefined` is falsy). -/
def truthy : Option JSVal → Bool
  | some v => truthyVal v
  | none => false

/-- The expression `v || d` for a possibly-undefined `v`. -/
def jsOr (v : Option JSVal) (d : JSVal) : JSVal :=
  match v with
  | some x => if truthyVal x then x else d
  | none => d

/-- The expression `v + 1` where `1` is a number: numeric addition on
numbers and booleans/null (via ToNumber), string concatenation when the
left operand converts to a string. -/
def jsAdd1 : JSVal → JSVal
  | .num n => .num (n + 1)
  | .str s => .str (s ++ "1")
  | .objv s => .str (s ++ "1")
  | .boolv b => .num ((if b then 1 else 0) + 1)
  | .nullv => .num 1

/-- ToPropertyKey: the string a value is converted to when used as an
object index, as in `stats.byLevel[log.level]`. -/
def toKeyString : JSVal → String
  | .str s => s
  | .num n => toString n
  | .boolv b => if b then "true" else "false"
  | .objv s => s
  | .nullv => "null"

/-- The `stats` object: `totalReceived`, the `byLevel` counter object and
`lastReceived` (initially `null`). -/
structure Stats where
  totalReceived : Nat
  byLevel : JSObj
  lastReceived : Option String
  deriving DecidableEq, Repr

/-- Initial statistics: the four known level buckets at zero. -/
def initStats : Stats :=
  { totalReceived := 0
    byLevel := [("debug", .num 0), ("info", .num 0), ("warn", .num 0), ("error", .num 0)]
    lastReceived := none }

/-- The whole mutable server state: the `receivedLogs` array (newest
first) and the `stats` object. -/
structure Store where
  receivedLogs : List JSObj
  stats : Stats
  deriving DecidableEq, Repr

/-- The state at process start. -/
def initStore : Store := { receivedLogs := [], stats := initStats }

/-- Response of POST /logs: 400 with an error body, or 202 with the
assigned id and receipt timestamp. -/
inductive PostResp where
  | badRequest : String → PostResp
  | accepted : String → String → PostResp
  deriving DecidableEq, Repr

/-- Validation test of POST /logs: `!log.level || !log.message`. -/
def validLog (log : JSObj) : Bool :=
  truthy (jsGetProp log "level") && truthy (jsGetProp log "message")

/-- The id string built from one draw of the random token
`Math.random().toString(36).substring(2, 9)`. -/
def mkId (tok : String) : String := "rec_" ++ tok

/-- The stored record: the object literal spread plus the two
server-generated fields, which overwrite identically named submitted
fields (define semantics, no `__proto__` special case applies to these
two literal keys). -/
def mkStored (log : JSObj) (timestamp tok : String) : JSObj :=
  setOwn (setOwn log "received_at" (.str timestamp)) "id" (.str (mkId tok))

/-- POST /logs.  `timestamp` is `new Date().toISOString()` and `tok` the
random id token, both inputs of the embedding.  On invalid input the
handler returns 400 without touching the store; otherwise it prepends the
enhanced record, truncates to 1000 entries and updates the counters. -/
def postLogs (log : JSObj) (timestamp tok : String) (st : Store) : PostResp × Store :=
  if !validLog log then
    (.badRequest "Missing required fields: level and message", st)
  else
    let receivedLog := mkStored log timestamp tok
    let logs1 := (receivedLog :: st.receivedLogs).take 1000
    let key := toKeyString ((jsGetProp log "level").getD .nullv)
    let byLevel1 := jsSetProp st.stats.byLevel key
      (jsAdd1 (jsOr (jsGetProp st.stats.byLevel key) (.num 0)))
    let stats1 : Stats :=
      { totalReceived := st.stats.totalReceived + 1
        byLevel := byLevel1
        lastReceived := some timestamp }
    (.accepted (mkId tok) timestamp, { receivedLogs := logs1, stats := stats1 })

/-- Value of a decimal digit character, `none` otherwise. -/
def decDigit (c : Char) : Option Nat :=
  if c.isDigit then some (c.toNat - 48) else none

/-- Value of a hexadecimal digit character, `none` otherwise. -/
def hexDigit (c : Char) : Option Nat :=
  if c.isDigit then some (c.toNat - 48)
  else if 'a' ≤ c && c ≤ 'f' then some (c.toNat - 87)
  else if 'A' ≤ c && c ≤ 'F' then some (c.toNat - 55)
  else none

/-- Accumulate the longest leading run of digits of the given base;
`none` when there is no digit at all (parseInt then yields NaN). -/
def parseDigits (base : Nat) (dv : Char → Option Nat) (l : List Char) : Option Nat :=
  let ds := l.takeWhile (fun c => (dv c).isSome)
  if ds = [] then none
  else some (ds.foldl (fun a c => a * base + (dv c).getD 0) 0)

/-- Magnitude part of `parseInt` with no radix argument: a `0x`/`0X`
prefix selects base 16, otherwise base 10. -/
def parseIntMag : List Char → Option Nat
  | '0' :: 'x' :: rest => parseDigits 16 hexDigit rest
  | '0' :: 'X' :: rest => parseDigits 16 hexDigit rest
  | l => parseDigits 10 decDigit l

/-- JavaScript `parseInt(s)`: skip leading whitespace, optional sign,
then the leading digit run; `none` models NaN. -/
def parseIntJS (s : String) : Option Int :=
  let l := s.data.dropWhile Char.isWhitespace
  match l with
  | '-' :: rest => (parseIntMag rest).map (fun n => -(n : Int))
  | '+' :: rest => (parseIntMag rest).map (fun n => (n : Int))
  | _ => (parseIntMag l).map (fun n => (n : Int))

/-- A query parameter fed through `parseInt`: an absent parameter takes
the numeric destructuring default `d` (and `parseInt` maps that number
back to itself). -/
def parseParam (p : Option String) (d : Int) : Option Int :=
  match p with
  | none => some d
  | some s => parseIntJS s

/-- Addition where either operand may be NaN. -/
def jsAddNum : Option Int → Option Int → Option Int
  | some a, some b => some (a + b)
  | _, _ => none

/-- The comparison `a < n` where `a` may be NaN (`NaN < n` is false). -/
def jsLtNat (a : Option Int) (n : Nat) : Bool :=
  match a with
  | some i => i < (n : Int)
  | none => false

/-- A slice bound as resolved by `Array.prototype.slice`: NaN becomes 0,
a negative index counts from the end (clamped at 0), a large index is
clamped to the length. -/
def sliceIdx (len : Nat) : Option Int → Nat
  | none => 0
  | some i => if i < 0 then ((len : Int) + i).toNat else min i.toNat len

/-- JavaScript `l.slice(s, e)` with possibly-NaN bounds: the elements at
positions `sliceIdx s ≤ i < sliceIdx e`. -/
def jsSlice (l : List α) (s e : Option Int) : List α :=
  (l.take (sliceIdx l.length e)).drop (sliceIdx l.length s)

/-- Truthiness of a query-string parameter (`undefined` and the empty
string are falsy). -/
def strTruthy : Option String → Bool
  | some s => s ≠ ""
  | none => false

/-- Strict equality `log[f] === s` between a property read and a query
string: true exactly when the property is that string. -/
def eqStrProp (log : JSObj) (f s : String) : Bool :=
  match jsGetProp log f with
  | some (.str t) => t = s
  | _ => false

/-- The conditional level filter `if (level) ... log.level === level`. -/
def levelFilter (level : Option String) (logs : List JSObj) : List JSObj :=
  match level with
  | some lv => if lv = "" then logs else logs.filter (fun log => eqStrProp log "level" lv)
  | none => logs

/-- The conditional source filter `if (source) ... log.source === source`. -/
def sourceFilter (source : Option String) (logs : List JSObj) : List JSObj :=
  match source with
  | some sv => if sv = "" then logs else logs.filter (fun log => eqStrProp log "source" sv)
  | none => logs

/-- Body of the GET /logs response. -/
structure ListResp where
  logs : List JSObj
  total : Nat
  limit : Option Int
  offset : Option Int
  hasMore : Bool
  deriving DecidableEq, Repr

/-- GET /logs: level filter, then source filter, then the
`slice(start, start + limit)` page with `parseInt`-converted bounds. -/
def listHandler (level source limitP offsetP : Option String) (st : Store) :
    ListResp × Store :=
  let filtered := sourceFilter source (levelFilter level st.receivedLogs)
  let start := parseParam offsetP 0
  let stop := jsAddNum start (parseParam limitP 50)
  ({ logs := jsSlice filtered start stop
     total := filtered.length
     limit := parseParam limitP 50
     offset := start
     hasMore := jsLtNat stop filtered.length }, st)

/-- Outcome of GET /search: 400, a result page with the total count, or
an exception escaping the handler (surfaced by the framework as an
internal server error). -/
inductive SearchOut where
  | badRequest : String → SearchOut
  | results : List JSObj → Nat → SearchOut
  | thrown : String → SearchOut
  deriving DecidableEq, Repr

/-- Case-insensitive containment
`m.toLowerCase().includes(q.toLowerCase())` on strings. -/
def lowerIncludes (m q : String) : Bool :=
  decide (q.toLower.data <:+: m.toLower.data)

/-- One evaluation of the search callback: reads `log.message` and
throws a TypeError when it is not a string (only strings have a
`toLowerCase` method). -/
def searchTest (q : String) (log : JSObj) : Except String Bool :=
  match jsGetProp log "message" with
  | some (.str m) => .ok (lowerIncludes m q)
  | some _ => .error "TypeError: log.message.toLowerCase is not a function"
  | none => .error "TypeError: Cannot read properties of undefined (reading toLowerCase)"

/-- `Array.prototype.filter` whose callback may throw: the first
exception, raised left to right, aborts the whole filter. -/
def filterExcept (p : α → Except ε Bool) : List α → Except ε (List α)
  | [] => .ok []
  | x :: xs => do
    let b ← p x
    let r ← filterExcept p xs
    pure (if b then x :: r else r)

/-- GET /search: reject a falsy `q`, level pre-filter, case-insensitive
message search, then the first 100 results plus the total count. -/
def searchHandler (q level : Option String) (st : Store) : SearchOut × Store :=
  if !strTruthy q then
    (.badRequest "Query parameter \x22q\x22 is required", st)
  else
    let qs := q.getD ""
    let f1 := levelFilter level st.receivedLogs
    match filterExcept (searchTest qs) f1 with
    | .error e => (.thrown e, st)
    | .ok rs => (.results (rs.take 100) rs.length, st)

/-- Body of the GET /stats response (the process memory-usage field is
transport-level information outside the store model). -/
structure StatsResp where
  totalReceived : Nat
  byLevel : JSObj
  lastReceived : Option String
  totalLogs : Nat
  deriving DecidableEq, Repr

/-- GET /stats: a read-only snapshot of the counters and the current
record count. -/
def statsHandler (st : Store) : StatsResp × Store :=
  ({ totalReceived := st.stats.totalReceived
     byLevel := st.stats.byLevel
     lastReceived := st.stats.lastReceived
     totalLogs := st.receivedLogs.length }, st)

/-- Body of the DELETE /logs response. -/
structure ClearResp where
  message : String
  cleared_at : String
  deriving DecidableEq, Repr

/-- DELETE /logs: report the live count, empty the array and reset the
statistics to a fresh initial object. -/
def clearHandler (now : String) (st : Store) : ClearResp × Store :=
  ({ message := "Cleared " ++ toString st.receivedLogs.length ++ " logs"
     cleared_at := now },
   { receivedLogs := [], stats := initStats })

/-- One admission input: the submitted body, the receipt timestamp and
the random id token drawn for it. -/
structure AdmitIn where
  log : JSObj
  timestamp : String
  tok : String
  deriving DecidableEq, Repr

/-- State successor of one POST /logs call. -/
def admitStep (st : Store) (a : AdmitIn) : Store :=
  (postLogs a.log a.timestamp a.tok st).2

/-- A run of POST /logs calls, oldest first. -/
def runAdmits (as : List AdmitIn) (st : Store) : Store :=
  as.foldl admitStep st

/-- The id fields of the live records, newest first. -/
def idsOf (st : Store) : List JSVal :=
  st.receivedLogs.filterMap (fun log => getOwn log "id")

/-! ### Lemmas about own-property access -/

theorem getOwn_setOwn_same : ∀ (o : JSObj) (k : String) (v : JSVal),
    getOwn (setOwn o k v) k = some v
  | [], k, v => by simp [getOwn, setOwn]
  | (k1, v1) :: rest, k, v => by
      by_cases h : k1 = k
      · simp [setOwn, h, getOwn]
      · simp [setOwn, h, getOwn, getOwn_setOwn_same rest k v]

theorem getOwn_setOwn_ne : ∀ (o : JSObj) (k k2 : String) (v : JSVal), k2 ≠ k →
    getOwn (setOwn o k v) k2 = getOwn o k2
  | [], k, k2, v, h => by simp [getOwn, setOwn, Ne.symm h]
  | (k1, v1) :: rest, k, k2, v, h => by
      by_cases h1 : k1 = k
      · simp [setOwn, h1, getOwn, Ne.symm h]
      · simp only [setOwn, if_neg h1, getOwn]
        by_cases h2 : k1 = k2
        · simp [h2]
        · simp [h2, getOwn_setOwn_ne rest k k2 v h]

theorem getOwn_mkStored_id (log : JSObj) (ts tok : String) :
    getOwn (mkStored log ts tok) "id" = some (.str (mkId tok)) :=
  getOwn_setOwn_same _ _ _

theorem getOwn_mkStored_received_at (log : JSObj) (ts tok : String) :
    getOwn (mkStored log ts tok) "received_at" = some (.str ts) := by
  unfold mkStored
  rw [getOwn_setOwn_ne _ _ _ _ (by decide)]
  exact getOwn_setOwn_same _ _ _

theorem getOwn_mkStored_other (log : JSObj) (ts tok k : String)
    (h1 : k ≠ "received_at") (h2 : k ≠ "id") :
    getOwn (mkStored log ts tok) k = getOwn log k := by
  unfold mkStored
  rw [getOwn_setOwn_ne _ _ _ _ h2, getOwn_setOwn_ne _ _ _ _ h1]

/-! ### Lemmas about one admission and runs of admissions -/

theorem postLogs_invalid (log : JSObj) (ts tok : String) (st : Store)
    (h : validLog log = false) :
    postLogs log ts tok st = (.badRequest "Missing required fields: level and message", st) := by
  simp [postLogs, h]

theorem postLogs_valid_records (log : JSObj) (ts tok : String) (st : Store)
    (h : validLog log = true) :
    (postLogs log ts tok st).2.receivedLogs =
      (mkStored log ts tok :: st.receivedLogs).take 1000 := by
  simp [postLogs, h]

theorem postLogs_valid_total (log : JSObj) (ts tok : String) (st : Store)
    (h : validLog log = true) :
    (postLogs log ts tok st).2.stats.totalReceived = st.stats.totalReceived + 1 := by
  simp [postLogs, h]

theorem runAdmits_cons (a : AdmitIn) (as : List AdmitIn) (st : Store) :
    runAdmits (a :: as) st = runAdmits as (admitStep st a) := rfl

theorem take_append_take (l t : List α) (n : Nat) :
    (l ++ t.take n).take n = (l ++ t).take n := by
  rw [List.take_append_eq_append_take, List.take_append_eq_append_take, List.take_take,
    Nat.min_eq_left (Nat.sub_le _ _)]

/-- Shape of the record window after a run of valid admits: the newest
1000 of the admitted records (newest first) in front of nothing of the
previous window beyond the cap. -/
theorem runAdmits_records (as : List AdmitIn) (st : Store)
    (hst : st.receivedLogs.length ≤ 1000)
    (hv : ∀ a ∈ as, validLog a.log = true) :
    (runAdmits as st).receivedLogs =
      ((as.map fun a => mkStored a.log a.timestamp a.tok).reverse ++ st.receivedLogs).take 1000 := by
  induction as generalizing st with
  | nil => simp [runAdmits, List.take_of_length_le hst]
  | cons a as ih =>
    have ha : validLog a.log = true := hv a (List.mem_cons_self a as)
    have hstep : (admitStep st a).receivedLogs =
        (mkStored a.log a.timestamp a.tok :: st.receivedLogs).take 1000 :=
      postLogs_valid_records _ _ _ _ ha
    have hlen : (admitStep st a).receivedLogs.length ≤ 1000 := by
      rw [hstep, List.length_take]; exact Nat.min_le_left _ _
    rw [runAdmits_cons, ih _ hlen (fun b hb => hv b (List.mem_cons_of_mem a hb)), hstep,
      take_append_take]
    simp [List.append_assoc]

theorem runAdmits_total (as : List AdmitIn) (st : Store)
    (hv : ∀ a ∈ as, validLog a.log = true) :
    (runAdmits as st).stats.totalReceived = st.stats.totalReceived + as.length := by
  induction as generalizing st with
  | nil => simp [runAdmits]
  | cons a as ih =>
    have ha : validLog a.log = true := hv a (List.mem_cons_self a as)
    rw [runAdmits_cons, ih _ (fun b hb => hv b (List.mem_cons_of_mem a hb))]
    have : (admitStep st a).stats.totalReceived = st.stats.totalReceived + 1 :=
      postLogs_valid_total _ _ _ _ ha
    rw [this]
    simp only [List.length_cons]
    omega

/-! ### Sample inputs shared by concrete witnesses and counterexamples -/

/-- A valid admission input. -/
def a0 : AdmitIn := ⟨[("level", .str "info"), ("message", .str "x")], "t0", "tk0"⟩

/-- C1: over any run of valid admits from the initial store, the window
holds the newest-first images of the admitted records truncated at 1000,
so its length never exceeds 1000 and equals `min totalReceived 1000`,
`records[0]` is the most recently admitted record, and past 1000 admits
the window is exactly the last 1000 admitted records in
reverse-admission order. -/
theorem window_invariant (as : List AdmitIn)
    (hv : ∀ a ∈ as, validLog a.log = true) :
    (runAdmits as initStore).receivedLogs =
      ((as.map fun a => mkStored a.log a.timestamp a.tok).reverse).take 1000 ∧
    (runAdmits as initStore).receivedLogs.length ≤ 1000 ∧
    (runAdmits as initStore).stats.totalReceived = as.length ∧
    (runAdmits as initStore).receivedLogs.length =
      min (runAdmits as initStore).stats.totalReceived 1000 ∧
    (runAdmits as initStore).receivedLogs.head? =
      (as.map fun a => mkStored a.log a.timestamp a.tok).getLast? ∧
    (1000 < as.length →
      (runAdmits as initStore).receivedLogs =
        ((as.map fun a => mkStored a.log a.timestamp a.tok).drop (as.length - 1000)).reverse) := by
  have hrec : (runAdmits as initStore).receivedLogs =
      ((as.map fun a => mkStored a.log a.timestamp a.tok).reverse).take 1000 := by
    have h := runAdmits_records as initStore (by simp [initStore]) hv
    simpa [initStore] using h
  have htot : (runAdmits as initStore).stats.totalReceived = as.length := by
    have h := runAdmits_total as initStore hv
    simpa [initStore, initStats] using h
  refine ⟨hrec, ?_, htot, ?_, ?_, ?_⟩
  · rw [hrec, List.length_take]
    exact Nat.min_le_left _ _
  · rw [hrec, htot, List.length_take, List.length_reverse, List.length_map]
    omega
  · rw [hrec, List.head?_take]
    simp
  · intro _
    rw [hrec]
    have h2 : ((as.map fun a => mkStored a.log a.timestamp a.tok).reverse.take 1000).reverse
        = (as.map fun a => mkStored a.log a.timestamp a.tok).drop (as.length - 1000) := by
      rw [List.reverse_take]
      simp
    calc (as.map fun a => mkStored a.log a.timestamp a.tok).reverse.take 1000
        = (((as.map fun a => mkStored a.log a.timestamp a.tok).reverse.take 1000).reverse).reverse := by
          rw [List.reverse_reverse]
      _ = ((as.map fun a => mkStored a.log a.timestamp a.tok).drop (as.length - 1000)).reverse := by
          rw [h2]

/-- Witness for C1 at the one-admission run of `a0`. -/
theorem window_invariant_witness :
    (∀ a ∈ [a0], validLog a.log = true) ∧
    ((runAdmits [a0] initStore).receivedLogs =
      (([a0].map fun a => mkStored a.log a.timestamp a.tok).reverse).take 1000 ∧
    (runAdmits [a0] initStore).receivedLogs.length ≤ 1000 ∧
    (runAdmits [a0] initStore).stats.totalReceived = [a0].length ∧
    (runAdmits [a0] initStore).receivedLogs.length =
      min (runAdmits [a0] initStore).stats.totalReceived 1000 ∧
    (runAdmits [a0] initStore).receivedLogs.head? =
      ([a0].map fun a => mkStored a.log a.timestamp a.tok).getLast? ∧
    (1000 < [a0].length →
      (runAdmits [a0] initStore).receivedLogs =
        (([a0].map fun a => mkStored a.log a.timestamp a.tok).drop ([a0].length - 1000)).reverse)) :=
  ⟨by decide, window_invariant [a0] (by decide)⟩

/-- C2: whenever the submitted record is missing `level` or `message`,
or carries it as the empty string, POST /logs answers 400 with the
documented error body and leaves the whole store (records and every
counter) unchanged. -/
theorem admit_rejects_invalid (log : JSObj) (ts tok : String) (st : Store)
    (h : getOwn log "level" = none ∨ getOwn log "level" = some (.str "") ∨
         getOwn log "message" = none ∨ getOwn log "message" = some (.str "")) :
    postLogs log ts tok st = (.badRequest "Missing required fields: level and message", st) := by
  apply postLogs_invalid
  rcases h with h | h | h | h <;>
    simp [validLog, jsGetProp, h, truthy, truthyVal, protoGet]

/-- Witness for C2: a record with a `message` but no `level` is rejected
and the initial store is untouched. -/
theorem admit_rejects_invalid_witness :
    (getOwn [("message", JSVal.str "x")] "level" = none) ∧
    postLogs [("message", JSVal.str "x")] "t0" "tk0" initStore =
      (.badRequest "Missing required fields: level and message", initStore) :=
  ⟨rfl, admit_rejects_invalid _ _ _ _ (Or.inl rfl)⟩

/-- With non-negative integer bounds, the JavaScript slice
`slice(o, o + l)` is drop-then-take. -/
theorem jsSlice_nonneg (L : List α) (o l : Nat) :
    jsSlice L (some (o : Int)) (some ((o : Int) + (l : Int))) = (L.drop o).take l := by
  have h1 : ¬ ((o : Int) < 0) := by omega
  have h2 : ¬ ((o : Int) + (l : Int) < 0) := by omega
  have e1 : ((o : Int) + (l : Int)).toNat = o + l := by omega
  have e2 : ((o : Int)).toNat = o := by omega
  simp only [jsSlice, sliceIdx]
  rw [if_neg h1, if_neg h2, e1, e2, List.drop_take]
  by_cases ho : o ≤ L.length
  · have hm : min o L.length = o := Nat.min_eq_left ho
    rw [hm, List.take_eq_take, List.length_drop]
    omega
  · have hm : min o L.length = L.length := by omega
    rw [hm, List.drop_length, List.drop_eq_nil_of_le (by omega : L.length ≤ o)]
    simp

/-- C3: for any store and any list request whose `limit` and `offset`
parameters are absent or parse as the non-negative integers `l` and `o`,
GET /logs leaves the store unchanged and returns exactly the slice
`[offset, offset + limit)` of the level-then-source filtered records in
stored order, the filtered count as `total`, and
`hasMore = (offset + limit < total)`; an out-of-range offset yields an
empty page rather than an error. -/
theorem list_handler_correct (level source limitP offsetP : Option String) (st : Store)
    (o l : Nat)
    (ho : parseParam offsetP 0 = some (o : Int))
    (hl : parseParam limitP 50 = some (l : Int)) :
    (listHandler level source limitP offsetP st).2 = st ∧
    (listHandler level source limitP offsetP st).1.logs =
      ((sourceFilter source (levelFilter level st.receivedLogs)).drop o).take l ∧
    (listHandler level source limitP offsetP st).1.total =
      (sourceFilter source (levelFilter level st.receivedLogs)).length ∧
    (listHandler level source limitP offsetP st).1.hasMore =
      decide (o + l < (sourceFilter source (levelFilter level st.receivedLogs)).length) ∧
    ((sourceFilter source (levelFilter level st.receivedLogs)).length ≤ o →
      (listHandler level source limitP offsetP st).1.logs = []) := by
  have hlogs : (listHandler level source limitP offsetP st).1.logs =
      ((sourceFilter source (levelFilter level st.receivedLogs)).drop o).take l := by
    simp only [listHandler, ho, hl, jsAddNum]
    exact jsSlice_nonneg _ o l
  refine ⟨rfl, hlogs, rfl, ?_, ?_⟩
  · simp only [listHandler, ho, hl, jsAddNum, jsLtNat]
    rw [decide_eq_decide]
    constructor <;> intro h <;> exact_mod_cast h
  · intro hle
    rw [hlogs, List.drop_eq_nil_of_le hle]
    simp

/-- Witness for C3: the default request against a one-record store. -/
theorem list_handler_correct_witness :
    (parseParam none 0 = some ((0 : Nat) : Int)) ∧
    (parseParam none 50 = some ((50 : Nat) : Int)) ∧
    ((listHandler none none none none (runAdmits [a0] initStore)).2 =
        runAdmits [a0] initStore ∧
      (listHandler none none none none (runAdmits [a0] initStore)).1.logs =
        ((sourceFilter none (levelFilter none (runAdmits [a0] initStore).receivedLogs)).drop 0).take 50 ∧
      (listHandler none none none none (runAdmits [a0] initStore)).1.total =
        (sourceFilter none (levelFilter none (runAdmits [a0] initStore).receivedLogs)).length ∧
      (listHandler none none none none (runAdmits [a0] initStore)).1.hasMore =
        decide (0 + 50 <
          (sourceFilter none (levelFilter none (runAdmits [a0] initStore).receivedLogs)).length) ∧
      ((sourceFilter none (levelFilter none (runAdmits [a0] initStore).receivedLogs)).length ≤ 0 →
        (listHandler none none none none (runAdmits [a0] initStore)).1.logs = [])) :=
  ⟨by decide, by decide,
    list_handler_correct none none none none (runAdmits [a0] initStore) 0 50
      (by decide) (by decide)⟩

/-- Whether a record's `message` property reads as a string. -/
def isStrMsg (log : JSObj) : Bool :=
  match jsGetProp log "message" with
  | some (.str _) => true
  | _ => false

/-- The pure search predicate: the record's string message contains the
query case-insensitively. -/
def msgMatches (qs : String) (log : JSObj) : Bool :=
  match jsGetProp log "message" with
  | some (.str m) => lowerIncludes m qs
  | _ => false

theorem searchTest_eq_ok (qs : String) (log : JSObj) (h : isStrMsg log = true) :
    searchTest qs log = .ok (msgMatches qs log) := by
  unfold isStrMsg at h
  unfold searchTest msgMatches
  cases e : jsGetProp log "message" with
  | none => rw [e] at h; simp at h
  | some v => cases v <;> rw [e] at h <;> simp_all

theorem mem_levelFilter {log : JSObj} {level : Option String} {logs : List JSObj}
    (h : log ∈ levelFilter level logs) : log ∈ logs := by
  cases level with
  | none => exact h
  | some lv =>
    by_cases hlv : lv = ""
    · simpa [levelFilter, hlv] using h
    · simp only [levelFilter, if_neg hlv] at h
      exact List.mem_of_mem_filter h

theorem filterExcept_eq_ok (p : α → Except ε Bool) (f : α → Bool) :
    ∀ (l : List α), (∀ x ∈ l, p x = .ok (f x)) →
      filterExcept p l = .ok (l.filter f)
  | [], _ => rfl
  | x :: xs, h => by
    have hx := h x (List.mem_cons_self x xs)
    have hxs := filterExcept_eq_ok p f xs (fun y hy => h y (List.mem_cons_of_mem x hy))
    simp only [filterExcept, hx, hxs, List.filter_cons]
    by_cases hf : f x = true <;> simp [hf, Bind.bind, Except.bind, Pure.pure, Except.pure]

/-- C4: GET /search answers 400 with the documented body on a missing or
empty query, leaving the store unchanged; with a non-empty query (and
stored messages being strings, as the data model requires) it returns
the first 100 of the case-insensitive substring matches over the
optionally level-pre-filtered records in stored order, plus the total
match count, which may exceed 100, again without touching the store. -/
theorem search_handler_correct (q level : Option String) (st : Store)
    (hmsg : ∀ log ∈ st.receivedLogs, isStrMsg log = true) :
    ((q = none ∨ q = some "") →
      searchHandler q level st =
        (.badRequest "Query parameter \x22q\x22 is required", st)) ∧
    (∀ qs, q = some qs → qs ≠ "" →
      searchHandler q level st =
        (.results (((levelFilter level st.receivedLogs).filter (msgMatches qs)).take 100)
          ((levelFilter level st.receivedLogs).filter (msgMatches qs)).length, st)) := by
  constructor
  · rintro (rfl | rfl) <;> rfl
  · rintro qs rfl hqs
    have hok : filterExcept (searchTest qs) (levelFilter level st.receivedLogs) =
        .ok ((levelFilter level st.receivedLogs).filter (msgMatches qs)) :=
      filterExcept_eq_ok _ _ _
        (fun x hx => searchTest_eq_ok qs x (hmsg x (mem_levelFilter hx)))
    simp [searchHandler, strTruthy, hqs, hok]

/-- Witness for C4: searching "X" in a one-record store whose message is
the string "x". -/
theorem search_handler_correct_witness :
    (∀ log ∈ (runAdmits [a0] initStore).receivedLogs, isStrMsg log = true) ∧
    ((((some "X" : Option String) = none ∨ (some "X" : Option String) = some "") →
      searchHandler (some "X") none (runAdmits [a0] initStore) =
        (.badRequest "Query parameter \x22q\x22 is required", runAdmits [a0] initStore)) ∧
    (∀ qs, (some "X" : Option String) = some qs → qs ≠ "" →
      searchHandler (some "X") none (runAdmits [a0] initStore) =
        (.results
          (((levelFilter none (runAdmits [a0] initStore).receivedLogs).filter
              (msgMatches qs)).take 100)
          ((levelFilter none (runAdmits [a0] initStore).receivedLogs).filter
              (msgMatches qs)).length,
          runAdmits [a0] initStore))) :=
  ⟨by decide, search_handler_correct (some "X") none (runAdmits [a0] initStore) (by decide)⟩

/-- C5 (failing input): admitting a record whose level is the string
"toString" does not create a fresh zero bucket, because the counter read
`stats.byLevel[level] || 0` finds the truthy inherited
`Object.prototype.toString` function, so `byLevel.toString` becomes the
function-to-string concatenation instead of the count 1. -/
theorem byLevel_prototype_pollution :
    (runAdmits [⟨[("level", .str "toString"), ("message", .str "x")], "t1", "tk1"⟩]
        initStore).stats.byLevel =
      [("debug", .num 0), ("info", .num 0), ("warn", .num 0), ("error", .num 0),
       ("toString", .str "function toString() \x7b [native code] \x7d1")] ∧
    getOwn (runAdmits [⟨[("level", .str "toString"), ("message", .str "x")], "t1", "tk1"⟩]
        initStore).stats.byLevel "toString" ≠ some (.num 1) :=
  ⟨rfl, by decide⟩

/-- C6: DELETE /logs reports the number of records held before clearing,
returns the store to the initial state, and a subsequent stats call shows
zero totalReceived, zero stored records, the four byLevel buckets at
zero, and no lastReceived timestamp. -/
theorem clear_handler_resets (now : String) (st : Store) :
    (clearHandler now st).1.message =
      "Cleared " ++ toString st.receivedLogs.length ++ " logs" ∧
    (clearHandler now st).2 = initStore ∧
    (statsHandler (clearHandler now st).2).1.totalReceived = 0 ∧
    (statsHandler (clearHandler now st).2).1.totalLogs = 0 ∧
    (statsHandler (clearHandler now st).2).1.byLevel = initStats.byLevel ∧
    (statsHandler (clearHandler now st).2).1.lastReceived = none :=
  ⟨rfl, rfl, rfl, rfl, rfl, rfl⟩

/-- A one-record store used by the malformed-parameter evaluation. -/
def oneLog : JSObj := [("level", .str "info"), ("message", .str "hello")]

/-- The store after admitting `oneLog`. -/
def oneStore : Store := runAdmits [⟨oneLog, "t1", "tk1"⟩] initStore

/-- C7 (failing input): a malformed `limit` or `offset` is parsed to NaN,
which propagates through `start + parseInt(limit)` into `slice`, so the
page comes back empty — not the page the documented defaults (limit 50,
offset 0) would produce on the same one-record store. -/
theorem malformed_params_empty_page :
    (listHandler none none (some "abc") none oneStore).1.logs = [] ∧
    (listHandler none none none (some "xyz") oneStore).1.logs = [] ∧
    (listHandler none none none none oneStore).1.logs = [mkStored oneLog "t1" "tk1"] ∧
    (listHandler none none (some "abc") none oneStore).1 ≠
      (listHandler none none none none oneStore).1 ∧
    (listHandler none none none (some "xyz") oneStore).1 ≠
      (listHandler none none none none oneStore).1 :=
  ⟨rfl, rfl, rfl, by decide, by decide⟩

/-- A record with a numeric message; `42` is truthy, so admission
succeeds. -/
def numLog : JSObj := [("level", .str "info"), ("message", .num 42)]

/-- C9 (failing input): a record with `message: 42` is admitted, and a
subsequent valid search throws a TypeError out of the handler (the
framework surfaces it as an internal error, not a validation error). -/
theorem search_throws_on_numeric_message :
    (postLogs numLog "t1" "tk1" initStore).1 = .accepted "rec_tk1" "t1" ∧
    (searchHandler (some "a") none (postLogs numLog "t1" "tk1" initStore).2).1 =
      .thrown "TypeError: log.message.toLowerCase is not a function" :=
  ⟨rfl, rfl⟩

/-- C10: on a successful admit the stored head record carries the
server-generated `id` and `received_at` (overwriting any identically
named submitted fields), and every other submitted field is preserved
verbatim. -/
theorem server_fields_override (log : JSObj) (ts tok : String) (st : Store) (k : String)
    (hv : validLog log = true) (h1 : k ≠ "received_at") (h2 : k ≠ "id") :
    (postLogs log ts tok st).2.receivedLogs.head? = some (mkStored log ts tok) ∧
    getOwn (mkStored log ts tok) "id" = some (.str ("rec_" ++ tok)) ∧
    getOwn (mkStored log ts tok) "received_at" = some (.str ts) ∧
    getOwn (mkStored log ts tok) k = getOwn log k := by
  refine ⟨?_, getOwn_mkStored_id log ts tok, getOwn_mkStored_received_at log ts tok,
    getOwn_mkStored_other log ts tok k h1 h2⟩
  rw [postLogs_valid_records log ts tok st hv, List.head?_take]
  simp

/-- A submitted record that already carries `id` and `received_at`
fields, plus an application field `x`. -/
def overrideLog : JSObj :=
  [("id", .str "client-id"), ("received_at", .str "yesterday"),
   ("level", .str "warn"), ("message", .str "m"), ("x", .num 7)]

/-- Witness for C10 at `overrideLog` and the extra field `x`. -/
theorem server_fields_override_witness :
    (validLog overrideLog = true) ∧ (("x" : String) ≠ "received_at") ∧
    (("x" : String) ≠ "id") ∧
    ((postLogs overrideLog "t9" "tok9" initStore).2.receivedLogs.head? =
        some (mkStored overrideLog "t9" "tok9") ∧
      getOwn (mkStored overrideLog "t9" "tok9") "id" = some (.str ("rec_" ++ "tok9")) ∧
      getOwn (mkStored overrideLog "t9" "tok9") "received_at" = some (.str "t9") ∧
      getOwn (mkStored overrideLog "t9" "tok9") "x" = getOwn overrideLog "x") :=
  ⟨by decide, by decide, by decide,
    server_fields_override overrideLog "t9" "tok9" initStore "x"
      (by decide) (by decide) (by decide)⟩

theorem filterMap_getOwn_id_map_mk (l : List AdmitIn) :
    (l.map fun a => mkStored a.log a.timestamp a.tok).filterMap
        (fun log => getOwn log "id") =
      l.map (fun a => JSVal.str (mkId a.tok)) := by
  induction l with
  | nil => rfl
  | cons a l ih => simp [List.filterMap_cons, getOwn_mkStored_id, ih]

theorem mkId_injective : Function.Injective mkId := by
  intro a b h
  unfold mkId at h
  have h2 := congrArg String.data h
  rw [String.data_append, String.data_append] at h2
  exact String.ext (List.append_cancel_left h2)

/-- Two admissions whose random draws produced the same token. -/
def dupToks : List AdmitIn :=
  [⟨[("level", .str "info"), ("message", .str "a")], "t1", "zzzzzzz"⟩,
   ⟨[("level", .str "info"), ("message", .str "b")], "t2", "zzzzzzz"⟩]

/-- C8 (counterexample): the id generator draws a random token with no
collision check against live records, so the reachable run `dupToks` (two
admits for which `Math.random` yields the same token while both records
stay live) leaves two live records with the same id — the ids of the
currently-held records are not pairwise distinct in every reachable
state. -/
theorem id_collision_reachable :
    ¬ (idsOf (runAdmits dupToks initStore)).Nodup := by decide

/-- C8 (amended): admit assigns each record the id `"rec_" ++ token`;
the ids of the live records are pairwise distinct provided the random
tokens drawn during the run are pairwise distinct. -/
theorem ids_nodup_of_distinct_tokens (as : List AdmitIn)
    (hv : ∀ a ∈ as, validLog a.log = true)
    (hd : (as.map AdmitIn.tok).Nodup) :
    (idsOf (runAdmits as initStore)).Nodup := by
  have hrec : (runAdmits as initStore).receivedLogs =
      ((as.map fun a => mkStored a.log a.timestamp a.tok).reverse).take 1000 := by
    have h := runAdmits_records as initStore (by simp [initStore]) hv
    simpa [initStore] using h
  unfold idsOf
  rw [hrec, ← List.map_reverse, ← List.map_take, filterMap_getOwn_id_map_mk]
  have hcomp : (fun a : AdmitIn => JSVal.str (mkId a.tok)) =
      (fun t => JSVal.str (mkId t)) ∘ AdmitIn.tok := rfl
  rw [hcomp, ← List.map_map]
  apply List.Nodup.map
  · intro x y hxy
    injection hxy with h3
    exact mkId_injective h3
  · rw [List.map_take, List.map_reverse]
    exact List.Nodup.sublist (List.take_sublist _ _) (List.nodup_reverse.mpr hd)

/-- Two admissions with distinct random tokens. -/
def distinctToks : List AdmitIn :=
  [⟨[("level", .str "info"), ("message", .str "a")], "t1", "aaaaaaa"⟩,
   ⟨[("level", .str "info"), ("message", .str "b")], "t2", "bbbbbbb"⟩]

/-- Witness for the amended C8 at the two-admission run `distinctToks`. -/
theorem ids_nodup_of_distinct_tokens_witness :
    (∀ a ∈ distinctToks, validLog a.log = true) ∧
    (distinctToks.map AdmitIn.tok).Nodup ∧
    (idsOf (runAdmits distinctToks initStore)).Nodup :=
  ⟨by decide, by decide, ids_nodup_of_distinct_tokens distinctToks (by decide) (by decide)⟩
